import Mathlib

/-!
Shallow embedding of the lucky-imaging core of `apdsim/lisim.py`.

Images (ndarrays of intensities) are modelled as `List (List ℚ)` in row-major
order; floating-point arithmetic is modelled by exact rational arithmetic.
External library functions that the pipeline merely threads through
(`scipy.ndimage.shift`, the astropy Gaussian fitter, and the repo utility
`rotateAndCrop`, which is not part of the sources at hand) are taken as
explicit function parameters: every claim below holds for an arbitrary
interpretation of them.  Division by zero follows the Lean convention
`x / 0 = 0`; the only place this matters (the unguarded normalisation in
`shift_xcorr`) is discussed at the corresponding claim.
-/

/-- A frame: a grid of real-valued intensity samples (row-major). -/
abbrev Frame := List (List ℚ)

/-- A 2-D shift (Δrow, Δcol). -/
abbrev ShiftVec := ℚ × ℚ

/-- Crop-window argument (left, upper, right, lower); its semantics live in the
repo utility `rotateAndCrop`, which is kept opaque. -/
abbrev CropArg := (ℚ × ℚ) × (ℚ × ℚ)

/-- Sample a frame at (i, j), with 0 outside the grid (numpy indexing is only
used in-bounds by the source). -/
def idxQ (m : Frame) (i j : ℕ) : ℚ := (m.getD i []).getD j 0

/-- Number of columns of a frame, `shape[1]` of a rectangular ndarray. -/
def frameWidth (m : Frame) : ℕ := (m.getD 0 []).length

/-- Shape of a frame, as the pair `(shape[0], shape[1])`. -/
def frameShape (m : Frame) : ℕ × ℕ := (m.length, frameWidth m)

/-- All-zero frame of the given shape (`np.zeros`). -/
def zeroFrame (h w : ℕ) : Frame := List.replicate h (List.replicate w (0 : ℚ))

/-- Elementwise sum of two frames. -/
def madd (a b : Frame) : Frame := List.zipWith (List.zipWith (· + ·)) a b

/-- Elementwise product of two frames. -/
def elemMul (a b : Frame) : Frame := List.zipWith (List.zipWith (· * ·)) a b

/-- Divide every sample of a frame by a scalar. -/
def scaleDiv (a : Frame) (d : ℚ) : Frame := a.map (List.map (· / d))

/-- Elementwise sum of a list of equally-shaped frames (`np.sum(stack, 0)`). -/
def sumFrames (h w : ℕ) (l : List Frame) : Frame := l.foldl madd (zeroFrame h w)

/-- Row-major flattening of a frame (`ndarray.flatten()`). -/
def flattenF (m : Frame) : List ℚ := m.flatten

/-- Sum of all samples (`np.sum`). -/
def sumElems (m : Frame) : ℚ := (flattenF m).sum

/-- Maximum over all samples (`max(m.flatten())` / `np.amax`); 0 on an empty
frame (the source never takes the maximum of an empty array). -/
def maxFlatten (m : Frame) : ℚ :=
  match flattenF m with
  | [] => 0
  | x :: xs => xs.foldl max x

/-- Index of the first occurrence of the maximum in a list (`np.argmax` on the
flattened array: ties resolve to the lowest index). -/
def argmaxList (l : List ℚ) : ℕ :=
  (l.foldl
    (fun (acc : ℕ × ℕ × ℚ) x =>
      if acc.2.2 < x then (acc.2.1, acc.2.1 + 1, x) else (acc.1, acc.2.1 + 1, acc.2.2))
    (0, 0, l.getD 0 0)).1

/-- Row/column coordinates of the peak sample
(`np.unravel_index(np.argmax(m), m.shape)`). -/
def argmax2d (m : Frame) : ℕ × ℕ :=
  let w := frameWidth m
  let k := argmaxList (flattenF m)
  (k / w, k % w)

/-- Coordinate pair as rationals. -/
def natPair (p : ℕ × ℕ) : ShiftVec := ((p.1 : ℚ), (p.2 : ℚ))

/-- Componentwise difference of two shift vectors. -/
def sub2 (a b : ShiftVec) : ShiftVec := (a.1 - b.1, a.2 - b.2)

/-- Componentwise negation of a shift vector. -/
def neg2 (a : ShiftVec) : ShiftVec := (-a.1, -a.2)

/-- Model of `np.meshgrid(a, b)`: returns `(X, Y)` with `X[i][j] = a[j]` and
`Y[i][j] = b[i]`, both of shape `(len b, len a)`. -/
def meshgrid (a b : List ℚ) : Frame × Frame :=
  (b.map (fun _ => a), b.map (fun bi => a.map (fun _ => bi)))

/-- Model of `np.arange(n)` as a list of rationals. -/
def castRange (n : ℕ) : List ℚ := (List.range n).map (fun k : ℕ => (k : ℚ))

/-- Embedding of `_centroid` (lisim.py:545): intensity-weighted first moments
computed through `np.meshgrid`, returned as `(M_01 / M_00, M_10 / M_00)`. -/
def _centroid (image : Frame) : ShiftVec :=
  let height := image.length
  let width := frameWidth image
  let x := castRange height
  let y := castRange width
  let XY := meshgrid y x
  let M_10 := sumElems (elemMul XY.1 image)
  let M_01 := sumElems (elemMul XY.2 image)
  let M_00 := sumElems image
  (M_01 / M_00, M_10 / M_00)

/-- Search window of `shift_pp`: the whole image, or the crop window when a
bid area is given.  (Source line 329 spells the cropped operand `images`; the
current image is the only array in scope at the call site.) -/
def subImagePP (rotateAndCrop : Frame → CropArg → Frame)
    (image : Frame) (bid_area : Option CropArg) : Frame :=
  match bid_area with
  | some ba => rotateAndCrop image ba
  | none => image

/-- Embedding of `shift_pp` (lisim.py:323): peak-pixel registration of one
frame against precomputed reference peak coordinates.  Returns the shifted
image, the negated relative shift, and the peak pixel value. -/
def shift_pp (shift : Frame → ShiftVec → Frame) (rotateAndCrop : Frame → CropArg → Frame)
    (image : Frame) (img_ref_peak_idx : ShiftVec) (fsr : ℚ) (bid_area : Option CropArg) :
    Frame × ShiftVec × ℚ :=
  let _ := fsr  -- the source signature takes `fsr` but its body never uses it
  let sub_image := subImagePP rotateAndCrop image bid_area
  let img_peak_idx := natPair (argmax2d sub_image)
  let rel_shift_idx := sub2 img_ref_peak_idx img_peak_idx
  let image_shifted := shift image rel_shift_idx
  let peak_pixel_val := maxFlatten sub_image
  (image_shifted, neg2 rel_shift_idx, peak_pixel_val)

/-- Embedding of `shift_centroid` (lisim.py:343): centroid registration of one
frame against the precomputed reference centroid. -/
def shift_centroid (shift : Frame → ShiftVec → Frame)
    (image : Frame) (img_ref_peak_idx : ShiftVec) : Frame × ShiftVec :=
  let img_peak_idx := _centroid image
  let rel_shift_idx := sub2 img_ref_peak_idx img_peak_idx
  let image_shifted := shift image rel_shift_idx
  (image_shifted, neg2 rel_shift_idx)

/-- Reverse a frame along both axes (`image[::-1, ::-1]`). -/
def rev2 (m : Frame) : Frame := m.reverse.map List.reverse

/-- Full 2-D linear convolution of two frames: the exact quantity that
`scipy.signal.fftconvolve` approximates in floating point. -/
def conv2dFull (a b : Frame) : Frame :=
  let ha := a.length
  let wa := frameWidth a
  let hb := b.length
  let wb := frameWidth b
  (List.range (ha + hb - 1)).map (fun i =>
    (List.range (wa + wb - 1)).map (fun j =>
      ((List.range ha).map (fun k =>
        ((List.range wa).map (fun l =>
          if k ≤ i ∧ l ≤ j then idxQ a k l * idxQ b (i - k) (j - l) else 0)).sum)).sum))

/-- Centered crop to shape `(h, w)`: the `same`-mode window scipy keeps from
the full convolution (start index `(cur - new) / 2` on each axis). -/
def centeredCrop (m : Frame) (h w : ℕ) : Frame :=
  let sr := (m.length - h) / 2
  let sc := (frameWidth m - w) / 2
  ((m.drop sr).take h).map (fun row => (row.drop sc).take w)

/-- Correlation surface of `shift_xcorr`:
`signal.fftconvolve(image_ref, image[::-1, ::-1], same)`. -/
def xcorrCorr (image image_ref : Frame) : Frame :=
  centeredCrop (conv2dFull image_ref (rev2 image)) image_ref.length (frameWidth image_ref)

/-- Maximum of the correlation surface: the divisor of the normalisation step
`corr /= max(corr.flatten())`. -/
def xcorrCorrMax (image image_ref : Frame) : ℚ := maxFlatten (xcorrCorr image image_ref)

/-- Normalised correlation surface.  The division is unconditional: the source
has no guard for a zero maximum. -/
def xcorrNormCorr (image image_ref : Frame) : Frame :=
  scaleDiv (xcorrCorr image image_ref) (xcorrCorrMax image image_ref)

/-- Interior window `corr[buff : h - buff, buff : w - buff]` handed to the
Gaussian fitter. -/
def cropInterior (m : Frame) (buff h w : ℕ) : Frame :=
  ((m.drop buff).take (h - buff - buff)).map (fun row => (row.drop buff).take (w - buff - buff))

/-- Embedding of `shift_xcorr` (lisim.py:356): cross-correlation registration.
`gaussFit` stands for the astropy Levenberg-Marquardt Gaussian fit, returning
the fitted `(y_mean, x_mean)` of the supplied surface. -/
def shift_xcorr (shift : Frame → ShiftVec → Frame) (gaussFit : Frame → ShiftVec)
    (image image_ref : Frame) (buff : ℕ) (subPixelShift : Bool) : Frame × ShiftVec :=
  let height := image.length
  let width := frameWidth image
  let corr := xcorrNormCorr image image_ref
  let rel_shift_idx : ShiftVec :=
    if subPixelShift then
      gaussFit (cropInterior corr buff height width)
    else
      let p := argmax2d corr
      ((p.1 : ℚ) - (height : ℚ) / 2, (p.2 : ℚ) - (width : ℚ) / 2)
  let image_shifted := shift image rel_shift_idx
  (image_shifted, neg2 rel_shift_idx)

/-- Descending `greater-or-equal-peak` relation on indices into a list of peak
values (`np.argsort(v)[::-1]` orders indices by decreasing value; the tie
order of `np.argsort` is unspecified, and any descending-sorted permutation
refines it). -/
def peakGE (v : List ℚ) (i j : ℕ) : Prop := v.getD j 0 ≤ v.getD i 0

instance (v : List ℚ) : DecidableRel (peakGE v) := fun i j => by
  unfold peakGE; infer_instance

instance (v : List ℚ) : IsTotal ℕ (peakGE v) :=
  ⟨fun i j => le_total (v.getD j 0) (v.getD i 0)⟩

instance (v : List ℚ) : IsTrans ℕ (peakGE v) :=
  ⟨fun _ _ _ hab hbc => le_trans hbc hab⟩

/-- Indices of the entries of `v`, sorted by decreasing value
(`np.argsort(v)[::-1]`). -/
def argsortDesc (v : List ℚ) : List ℕ :=
  List.insertionSort (peakGE v) (List.range v.length)

/-- Raw input of the pipeline: a numpy array that is either a single 2-D image
or a 3-D stack of images (the ranks `_li_error_check` distinguishes; the
claims exercise no higher rank). -/
inductive NDImages where
  | img (m : Frame)
  | seq (s : List Frame)
deriving DecidableEq

/-- Truthiness of the optional frame count: Python `if N` is false both for
`None` and for `0`. -/
def truthyN : Option ℕ → Bool
  | none => false
  | some n => n ≠ 0

/-- Embedding of `_li_error_check` (lisim.py:503).  Returns the candidate
frames, the reference frame and the frame count, or the message of the
`UserWarning` (resp. `IndexError`) the Python code raises.  The float
conversion is a no-op over ℚ, except that on an empty stack
`images.flatten()[0]` raises `IndexError` before anything else. -/
def _li_error_check (images : NDImages) (image_ref : Option Frame) (N : Option ℕ) :
    Except String (List Frame × Frame × ℕ) :=
  match images with
  | .img _ =>
      .error "ERROR: cannot shift and stack a single image! Input array must have N > 1."
  | .seq [] => .error "IndexError"
  | .seq (s0 :: srest) =>
      let s := s0 :: srest
      if truthyN N ∧ s.length < N.getD 0 then
        .error "ERROR: if specified, N must be equal to or less than the length of the first dimension of the images array."
      else
        match image_ref with
        | none =>
            let n := if truthyN N then N.getD 0 else s.length - 1
            .ok (srest, s0, n)
        | some r =>
            if frameShape r ≠ frameShape s0 then
              .error "ERROR: if specified, reference image shape must be equal to input image stack shape."
            else
              let n := if truthyN N then N.getD 0 else s.length
              .ok (s, r, n)

/-- List of the supported alignment-method names. -/
def validMethods : List String := ["xcorr", "peak_pixel", "centroid"]

/-- Per-frame registration function selected by the method dispatch of
`luckyImaging` (lisim.py:398-413).  The third component is the peak pixel
value for the peak-pixel method and a placeholder 0 for the two methods whose
source tuple has no third entry (it is only ever read for `peak_pixel`). -/
def shiftFunFor (shift : Frame → ShiftVec → Frame) (gaussFit : Frame → ShiftVec)
    (rotateAndCrop : Frame → CropArg → Frame)
    (li_method : String) (image_ref : Frame) (fsr : ℚ) (bid_area : Option CropArg)
    (subPixelShift : Bool) (buff : ℕ) : Frame → Frame × ShiftVec × ℚ :=
  if li_method = "xcorr" then
    fun image =>
      let r := shift_xcorr shift gaussFit image image_ref buff subPixelShift
      (r.1, r.2, 0)
  else if li_method = "peak_pixel" then
    let sub_image_ref := subImagePP rotateAndCrop image_ref bid_area
    let img_ref_peak_idx := natPair (argmax2d sub_image_ref)
    fun image => shift_pp shift rotateAndCrop image img_ref_peak_idx fsr bid_area
  else
    let img_ref_peak_idx := _centroid image_ref
    fun image =>
      let r := shift_centroid shift image img_ref_peak_idx
      (r.1, r.2, 0)

/-- Frame selection and stacking stage of `luckyImaging` (lisim.py:457-469),
applied to the index-ordered registration results. -/
def stackResults (li_method : String) (fsr : ℚ) (image_ref : Frame) (N : ℕ)
    (results : List (Frame × ShiftVec × ℚ)) : Frame × List ShiftVec :=
  let h := image_ref.length
  let w := frameWidth image_ref
  let images_shifted := results.map (·.1)
  let rel_shift_idxs := results.map (·.2.1)
  let peak_pixel_vals := results.map (·.2.2)
  if li_method = "peak_pixel" ∧ fsr < 1 then
    let sorted_idx := argsortDesc peak_pixel_vals
    let N2 := (⌈fsr * (N : ℚ)⌉).toNat
    (scaleDiv
      (madd image_ref
        (sumFrames h w ((sorted_idx.take N2).map (fun i => images_shifted.getD i (zeroFrame h w)))))
      ((N2 : ℚ) + 1),
     rel_shift_idxs)
  else
    (scaleDiv (madd image_ref (sumFrames h w images_shifted)) ((N : ℚ) + 1), rel_shift_idxs)

/-- Body of `luckyImaging` past the input check (lisim.py:394-469): method
dispatch, parallel or serial execution, selection and stacking.  The worker
pool of the parallel mode is deterministic and order-preserving (`pool.map`),
so its observable behaviour is a map over the candidate list; the serial mode
fills preallocated arrays of length `n` by index.  In parallel mode
`zip(*results)[0]` raises `IndexError` when no candidate frame was mapped. -/
def luckyImagingChecked (shift : Frame → ShiftVec → Frame) (gaussFit : Frame → ShiftVec)
    (rotateAndCrop : Frame → CropArg → Frame)
    (imgs : List Frame) (ref : Frame) (n : ℕ) (li_method : String) (mode : String)
    (fsr : ℚ) (bid_area : Option CropArg) (subPixelShift : Bool) (buff : ℕ) :
    Except String (Frame × List ShiftVec) :=
  if ¬ (li_method = "xcorr" ∨ li_method = "peak_pixel" ∨ li_method = "centroid") then
    .error "ERROR: invalid Lucky Imaging method specified; must be xcorr, peak_pixel or centroid for now..."
  else
    let shift_fun := shiftFunFor shift gaussFit rotateAndCrop li_method ref fsr bid_area subPixelShift buff
    let h := ref.length
    let w := frameWidth ref
    if mode = "parallel" then
      let results := imgs.map shift_fun
      if results = [] then .error "IndexError"
      else .ok (stackResults li_method fsr ref n results)
    else if mode = "serial" then
      .ok (stackResults li_method fsr ref n
        ((List.range n).map (fun k => shift_fun (imgs.getD k (zeroFrame h w)))))
    else
      .error "ERROR: mode must be either parallel or serial!"

/-- Embedding of `luckyImaging` (lisim.py:380): input check followed by the
registration/stacking body. -/
def luckyImaging (shift : Frame → ShiftVec → Frame) (gaussFit : Frame → ShiftVec)
    (rotateAndCrop : Frame → CropArg → Frame)
    (images : NDImages) (li_method : String) (mode : String)
    (image_ref : Option Frame) (fsr : ℚ) (bid_area : Option CropArg)
    (N : Option ℕ) (subPixelShift : Bool) (buff : ℕ) :
    Except String (Frame × List ShiftVec) :=
  match _li_error_check images image_ref N with
  | .error e => .error e
  | .ok (imgs, ref, n) =>
      luckyImagingChecked shift gaussFit rotateAndCrop imgs ref n li_method mode fsr
        bid_area subPixelShift buff

/-- Embedding of `alignmentError` (lisim.py:472) over real-valued shift
coordinates: per-frame Euclidean deviations, the count of deviations strictly
above the fixed 0.1 threshold, and their mean. -/
noncomputable def alignmentError (in_idxs out_idxs : List (ℝ × ℝ)) : ℕ × List ℝ × ℝ :=
  let N := in_idxs.length
  let thresh : ℝ := 0.1
  let errs := (List.range N).map (fun k =>
    Real.sqrt (((in_idxs.getD k (0, 0)).1 - (out_idxs.getD k (0, 0)).1) ^ 2 +
      ((in_idxs.getD k (0, 0)).2 - (out_idxs.getD k (0, 0)).2) ^ 2))
  let n_errs := errs.foldl (fun acc e => if thresh < e then acc + 1 else acc) 0
  let avg_err := errs.sum / (N : ℝ)
  (n_errs, errs, avg_err)

/-- Modelled from the spec: `getImageSize` is a repository utility that is
not among the sources at hand.  Following section 4.6 of the spec, it
normalises the input to a list of frames together with their count (a
single truth frame counts as one). -/
def getImageSize (images : NDImages) : List Frame × ℕ :=
  match images with
  | .img m => ([m], 1)
  | .seq s => (s, s.length)

/-- Embedding of `addTipTilt` (lisim.py:47).  `randn` is an explicit stream of
standard-normal draws (the source reads ambient `np.random` state; draw
`2*j` and `2*j+1` are the row/column draws of iteration `j`).  The result is
the list of displaced (optionally cropped) copies and the tip/tilt shift
array, whose first `N_tt` entries the source overwrites in place when
`sigma_tt_px` is given. -/
def addTipTilt (shift : Frame → ShiftVec → Frame) (rotateAndCrop : Frame → CropArg → Frame)
    (randn : ℕ → ℚ)
    (images : NDImages) (sigma_tt_px : Option ℚ) (tt_idxs : Option (List ShiftVec))
    (N_tt : ℕ) (crop_tt : Option CropArg) :
    Except String (List Frame × List ShiftVec) :=
  let imgsN := getImageSize images
  let imgsL := imgsN.1
  let N := imgsN.2
  if sigma_tt_px = none ∧ tt_idxs = none then
    .error "ERROR: either sigma_tt_px OR tt_idxs must be specified!"
  else
    let N_tt2 := if N ≠ 1 then N else N_tt
    let tt0 : List ShiftVec := (tt_idxs.getD (List.replicate N_tt2 (0, 0)))
    let step : ℕ → Frame × ShiftVec := fun j =>
      let image := if N = 1 then imgsL.getD 0 [] else imgsL.getD j []
      let sv : ShiftVec :=
        match sigma_tt_px with
        | some s => (randn (2 * j) * s, randn (2 * j + 1) * s)
        | none => tt0.getD j (0, 0)
      let image_tt := shift image sv
      let out :=
        match crop_tt with
        | none => image_tt
        | some c => rotateAndCrop image_tt c
      (out, sv)
    let outs := (List.range N_tt2).map step
    .ok (outs.map (·.1), outs.map (·.2) ++ tt0.drop N_tt2)

/-- Identity interpretation of the external resampling shift, used for
concrete evaluations. -/
def shiftId : Frame → ShiftVec → Frame := fun m _ => m

/-- Trivial interpretation of the external Gaussian fitter, used for concrete
evaluations. -/
def gaussFit0 : Frame → ShiftVec := fun _ => (0, 0)

/-- Identity interpretation of the repo crop utility, used for concrete
evaluations. -/
def racId : Frame → CropArg → Frame := fun m _ => m

/-- Concrete deterministic draw stream used for concrete evaluations. -/
def randnLin : ℕ → ℚ := fun k => (k : ℚ)

/-- Decidable equality of `Except` results, for concrete evaluations. -/
instance {ε α : Type} [DecidableEq ε] [DecidableEq α] : DecidableEq (Except ε α) :=
  fun a b =>
    match a, b with
    | .ok x, .ok y =>
        if h : x = y then .isTrue (by rw [h])
        else .isFalse (fun hc => h (Except.ok.inj hc))
    | .error x, .error y =>
        if h : x = y then .isTrue (by rw [h])
        else .isFalse (fun hc => h (Except.error.inj hc))
    | .ok _, .error _ => .isFalse (fun hc => Except.noConfusion hc)
    | .error _, .ok _ => .isFalse (fun hc => Except.noConfusion hc)

/-- Registration results of the candidate frames for a given method and
parameters: the index-ordered list of (shifted frame, returned shift vector,
peak value) triples. -/
def liResults (shift : Frame → ShiftVec → Frame) (gaussFit : Frame → ShiftVec)
    (rac : Frame → CropArg → Frame) (li_method : String) (ref : Frame) (fsr : ℚ)
    (bid : Option CropArg) (sp : Bool) (buff : ℕ) (imgs : List Frame) :
    List (Frame × ShiftVec × ℚ) :=
  imgs.map (shiftFunFor shift gaussFit rac li_method ref fsr bid sp buff)

/-- Indices of the frames that the peak-pixel selection keeps: the first
`ceil(fsr * n)` entries of the peak-value ranking in descending order. -/
def selectedIdx (fsr : ℚ) (n : ℕ) (peaks : List ℚ) : List ℕ :=
  (argsortDesc peaks).take ((⌈fsr * (n : ℚ)⌉).toNat)

/-- Statement of claim C2 at given pipeline arguments.  First part: with
SelectionFraction 1 the stacked image is (reference + sum of all shifted
candidates) divided by (count + 1), and the shift array is the index-ordered
list of returned shift vectors.  Second part: with a fraction strictly
between 0 and 1 (peak-pixel method) the divisor is the selected subset size
plus one and the sum ranges over the selected shifted frames. -/
def C2Spec (shift : Frame → ShiftVec → Frame) (gaussFit : Frame → ShiftVec)
    (rac : Frame → CropArg → Frame) (images : NDImages) (image_ref : Option Frame)
    (Nopt : Option ℕ) (imgs : List Frame) (ref : Frame) (n : ℕ)
    (li_method mode : String) (bid : Option CropArg) (sp : Bool) (buff : ℕ) : Prop :=
  (luckyImaging shift gaussFit rac images li_method mode image_ref 1 bid Nopt sp buff =
    .ok (scaleDiv (madd ref (sumFrames ref.length (frameWidth ref)
          ((liResults shift gaussFit rac li_method ref 1 bid sp buff imgs).map (·.1))))
        ((n : ℚ) + 1),
      (liResults shift gaussFit rac li_method ref 1 bid sp buff imgs).map (·.2.1))) ∧
  (∀ fsr : ℚ, 0 < fsr → fsr < 1 →
    luckyImaging shift gaussFit rac images "peak_pixel" mode image_ref fsr bid Nopt sp buff =
      .ok (scaleDiv (madd ref (sumFrames ref.length (frameWidth ref)
            ((selectedIdx fsr n
                ((liResults shift gaussFit rac "peak_pixel" ref fsr bid sp buff imgs).map (·.2.2))).map
              (fun i =>
                ((liResults shift gaussFit rac "peak_pixel" ref fsr bid sp buff imgs).map (·.1)).getD i
                  (zeroFrame ref.length (frameWidth ref))))))
          (((selectedIdx fsr n
              ((liResults shift gaussFit rac "peak_pixel" ref fsr bid sp buff imgs).map (·.2.2))).length : ℚ) + 1),
        (liResults shift gaussFit rac "peak_pixel" ref fsr bid sp buff imgs).map (·.2.1)))

/-- Statement of claim C4 at given pipeline arguments: there is an index
ordering of the `n` candidates, sorted by decreasing peak value, such that
the stack sums exactly its first `ceil(fsr * n)` entries alongside the
reference (so never more than `ceil(fsr * n)` non-reference frames), every
selected index has a peak value at least that of every unselected index, and
the returned shift array is the full index-ordered list. -/
def C4Spec (shift : Frame → ShiftVec → Frame) (gaussFit : Frame → ShiftVec)
    (rac : Frame → CropArg → Frame) (images : NDImages) (image_ref : Option Frame)
    (Nopt : Option ℕ) (imgs : List Frame) (ref : Frame) (n : ℕ) (mode : String)
    (bid : Option CropArg) (sp : Bool) (buff : ℕ) (fsr : ℚ) : Prop :=
  ∃ sorted_idx : List ℕ,
    sorted_idx.Perm (List.range n) ∧
    List.Sorted
      (peakGE ((liResults shift gaussFit rac "peak_pixel" ref fsr bid sp buff imgs).map (·.2.2)))
      sorted_idx ∧
    (sorted_idx.take ((⌈fsr * (n : ℚ)⌉).toNat)).length = (⌈fsr * (n : ℚ)⌉).toNat ∧
    (∀ i ∈ sorted_idx.take ((⌈fsr * (n : ℚ)⌉).toNat),
     ∀ j ∈ sorted_idx.drop ((⌈fsr * (n : ℚ)⌉).toNat),
      ((liResults shift gaussFit rac "peak_pixel" ref fsr bid sp buff imgs).map (·.2.2)).getD j 0 ≤
        ((liResults shift gaussFit rac "peak_pixel" ref fsr bid sp buff imgs).map (·.2.2)).getD i 0) ∧
    luckyImaging shift gaussFit rac images "peak_pixel" mode image_ref fsr bid Nopt sp buff =
      .ok (scaleDiv (madd ref (sumFrames ref.length (frameWidth ref)
            ((sorted_idx.take ((⌈fsr * (n : ℚ)⌉).toNat)).map
              (fun i =>
                ((liResults shift gaussFit rac "peak_pixel" ref fsr bid sp buff imgs).map (·.1)).getD i
                  (zeroFrame ref.length (frameWidth ref))))))
          ((((⌈fsr * (n : ℚ)⌉).toNat : ℕ) : ℚ) + 1),
        (liResults shift gaussFit rac "peak_pixel" ref fsr bid sp buff imgs).map (·.2.1))

/-- Number of displaced copies `addTipTilt` produces: the sequence length for
a multi-frame input, the requested count for a single truth frame. -/
def numTT (images : NDImages) (N_tt : ℕ) : ℕ :=
  match images with
  | .img _ => N_tt
  | .seq s => if s.length ≠ 1 then s.length else N_tt

/-- Source frame used by iteration `j` of `addTipTilt`. -/
def frameAt (images : NDImages) (j : ℕ) : Frame :=
  match images with
  | .img m => m
  | .seq s => if s.length = 1 then s.getD 0 [] else s.getD j []

/-! General list lemmas used throughout the development. -/

/-- Mapping a function over positions `0..length-1` via `getD` is mapping over
the list itself. -/
theorem range_map_getD {α β : Type} (l : List α) (z : α) (f : α → β) :
    (List.range l.length).map (fun k => f (l.getD k z)) = l.map f := by
  induction l with
  | nil => rfl
  | cons a t ih =>
      rw [List.length_cons, List.range_succ_eq_map, List.map_cons, List.map_map]
      simp only [Function.comp_def, List.getD_cons_zero, List.getD_cons_succ,
        Nat.succ_eq_add_one]
      rw [ih]
      rfl

/-- Sum of a mapped `List.range` as a `Finset.range` sum. -/
theorem listRangeMapSum {M : Type} [AddCommMonoid M] (n : ℕ) (g : ℕ → M) :
    ((List.range n).map g).sum = ∑ i in Finset.range n, g i := by
  induction n with
  | zero => simp
  | succ n ih =>
      rw [List.range_succ, List.map_append, List.sum_append, Finset.sum_range_succ, ih]
      simp

/-- Sum of a mapped list as a `Finset.range` sum over positions. -/
theorem listMapSum_getD {α : Type} {M : Type} [AddCommMonoid M] (l : List α) (z : α)
    (f : α → M) :
    (l.map f).sum = ∑ i in Finset.range l.length, f (l.getD i z) := by
  rw [← range_map_getD l z f, listRangeMapSum]

/-- Sum of a rational list as a `Finset.range` sum over positions. -/
theorem listSum_getD (l : List ℚ) :
    l.sum = ∑ i in Finset.range l.length, l.getD i 0 := by
  simpa using listMapSum_getD l 0 id

/-- Total intensity of a frame as the sum of its row sums. -/
theorem sumElems_eq (m : Frame) :
    sumElems m = ∑ r in Finset.range m.length, (m.getD r []).sum := by
  rw [sumElems, flattenF, List.sum_flatten]
  exact listMapSum_getD m [] List.sum

/-- Counting loop of `alignmentError` as a `countP`. -/
theorem foldl_count_eq_countP {α : Type} (p : α → Prop) [DecidablePred p] (l : List α)
    (n : ℕ) :
    l.foldl (fun acc e => if p e then acc + 1 else acc) n =
      n + l.countP (fun e => decide (p e)) := by
  induction l generalizing n with
  | nil => simp
  | cons a t ih =>
      by_cases h : p a
      · simp [h, ih, List.countP_cons]
        omega
      · simp [h, ih, List.countP_cons]

/-- Zipping a function with its positions via `getD`. -/
theorem zipWith_range_eq_map {β γ : Type} (l : List β) (z : β) (f : ℕ → β → γ) :
    List.zipWith f (List.range l.length) l =
      (List.range l.length).map (fun k => f k (l.getD k z)) := by
  induction l generalizing f with
  | nil => rfl
  | cons a t ih =>
      rw [List.length_cons, List.range_succ_eq_map]
      simp only [List.zipWith_cons_cons, List.map_cons, List.getD_cons_zero,
        List.zipWith_map_left, List.map_map]
      rw [ih (fun k b => f (k + 1) b)]
      simp [Function.comp_def, Nat.succ_eq_add_one]

/-- Zipping against a longer list with a function that ignores its first
argument is a map. -/
theorem zipWith_const_right {α β γ : Type} (g : β → γ) :
    ∀ (l : List α) (lb : List β), lb.length ≤ l.length →
      List.zipWith (fun _ b => g b) l lb = lb.map g := by
  intro l
  induction l with
  | nil =>
      intro lb h
      have hlb : lb = [] := by simpa using h
      subst hlb; rfl
  | cons a t ih =>
      intro lb h
      cases lb with
      | nil => rfl
      | cons b tb => simp [ih tb (by simpa using h)]

/-- Multiplying every entry of a list scales its sum. -/
theorem sum_map_mulLeft (q : ℚ) (l : List ℚ) :
    (l.map (fun v => q * v)).sum = q * l.sum := by
  induction l with
  | nil => simp
  | cons a t ih => simp [ih, mul_add]

/-- Passing the input check reduces `luckyImaging` to its checked body. -/
theorem luckyImaging_check_ok (shift : Frame → ShiftVec → Frame) (gaussFit : Frame → ShiftVec)
    (rac : Frame → CropArg → Frame) (images : NDImages) (image_ref : Option Frame)
    (Nopt : Option ℕ) (imgs : List Frame) (ref : Frame) (n : ℕ)
    (li_method mode : String) (fsr : ℚ) (bid : Option CropArg) (sp : Bool) (buff : ℕ)
    (hchk : _li_error_check images image_ref Nopt = .ok (imgs, ref, n)) :
    luckyImaging shift gaussFit rac images li_method mode image_ref fsr bid Nopt sp buff =
      luckyImagingChecked shift gaussFit rac imgs ref n li_method mode fsr bid sp buff := by
  unfold luckyImaging
  rw [hchk]

/-- With a valid method, a valid mode, a frame count matching the candidate
list and at least one candidate, both execution modes reduce to stacking the
map of the per-frame registration function over the candidates. -/
theorem luckyImagingChecked_valid (shift : Frame → ShiftVec → Frame)
    (gaussFit : Frame → ShiftVec) (rac : Frame → CropArg → Frame)
    (imgs : List Frame) (ref : Frame) (n : ℕ) (li_method mode : String)
    (fsr : ℚ) (bid : Option CropArg) (sp : Bool) (buff : ℕ)
    (hn : n = imgs.length) (hne : imgs ≠ [])
    (hm : li_method = "xcorr" ∨ li_method = "peak_pixel" ∨ li_method = "centroid")
    (hmode : mode = "parallel" ∨ mode = "serial") :
    luckyImagingChecked shift gaussFit rac imgs ref n li_method mode fsr bid sp buff =
      .ok (stackResults li_method fsr ref n
        (imgs.map (shiftFunFor shift gaussFit rac li_method ref fsr bid sp buff))) := by
  subst hn
  simp only [luckyImagingChecked]
  rw [if_neg (not_not_intro hm)]
  rcases hmode with h | h
  · subst h
    rw [if_pos rfl, if_neg (by simpa using hne)]
  · subst h
    rw [if_neg (by decide), if_pos rfl, range_map_getD]

/-- C1 (amended): whenever the effective frame count equals the number of
candidate frames (which is the default when no explicit `N` is supplied) and
at least one candidate is present, running `luckyImaging` in parallel mode
and in serial mode produces the same stacked image and the same index-ordered
shift-vector array, for every supported alignment method and all remaining
parameters.  The claim as frozen (over all parameters) fails because the
parallel branch ignores an explicitly restricted `N`: see the
counterexample. -/
theorem C1_parallel_serial_equiv (shift : Frame → ShiftVec → Frame)
    (gaussFit : Frame → ShiftVec) (rac : Frame → CropArg → Frame)
    (images : NDImages) (image_ref : Option Frame) (Nopt : Option ℕ)
    (imgs : List Frame) (ref : Frame) (n : ℕ) (li_method : String)
    (fsr : ℚ) (bid : Option CropArg) (sp : Bool) (buff : ℕ)
    (hchk : _li_error_check images image_ref Nopt = .ok (imgs, ref, n))
    (hn : n = imgs.length) (hne : imgs ≠ [])
    (hm : li_method ∈ validMethods) :
    luckyImaging shift gaussFit rac images li_method "parallel" image_ref fsr bid Nopt sp buff =
      luckyImaging shift gaussFit rac images li_method "serial" image_ref fsr bid Nopt sp buff := by
  have hm' : li_method = "xcorr" ∨ li_method = "peak_pixel" ∨ li_method = "centroid" := by
    simpa [validMethods] using hm
  rw [luckyImaging_check_ok shift gaussFit rac images image_ref Nopt imgs ref n li_method
        "parallel" fsr bid sp buff hchk,
      luckyImaging_check_ok shift gaussFit rac images image_ref Nopt imgs ref n li_method
        "serial" fsr bid sp buff hchk,
      luckyImagingChecked_valid shift gaussFit rac imgs ref n li_method "parallel" fsr bid
        sp buff hn hne hm' (Or.inl rfl),
      luckyImagingChecked_valid shift gaussFit rac imgs ref n li_method "serial" fsr bid
        sp buff hn hne hm' (Or.inr rfl)]

/-- C1 counterexample: three raw frames, no explicit reference, and an
explicit frame count `N = 1`.  The serial mode registers one candidate and
returns one shift vector with stacked image `(ref + frame1) / 2`; the
parallel mode registers both candidates and returns two shift vectors with
stacked image `(ref + frame1 + frame2) / 2`.  The outputs differ, refuting
the frozen claim at these fixed parameters. -/
theorem C1_counterexample :
    luckyImaging shiftId gaussFit0 racId (NDImages.seq [[[2]], [[3]], [[5]]]) "centroid"
        "parallel" none 1 none (some 1) false 25 ≠
      luckyImaging shiftId gaussFit0 racId (NDImages.seq [[[2]], [[3]], [[5]]]) "centroid"
        "serial" none 1 none (some 1) false 25 := by
  intro h
  exact absurd
    (congrArg
      (fun e : Except String (Frame × List ShiftVec) =>
        match e with
        | .ok p => p.2.length
        | .error _ => 0) h)
    (by decide)

/-- C1 witness: a two-frame sequence with default parameters satisfies every
hypothesis of the amended equivalence. -/
theorem C1_parallel_serial_equiv_witness :
    _li_error_check (NDImages.seq [[[2]], [[3]]]) none none = .ok ([[[3]]], [[2]], 1) ∧
    luckyImaging shiftId gaussFit0 racId (NDImages.seq [[[2]], [[3]]]) "centroid" "parallel"
        none 1 none none false 25 =
      luckyImaging shiftId gaussFit0 racId (NDImages.seq [[[2]], [[3]]]) "centroid" "serial"
        none 1 none none false 25 :=
  ⟨rfl,
   C1_parallel_serial_equiv shiftId gaussFit0 racId (NDImages.seq [[[2]], [[3]]]) none none
     [[[3]]] [[2]] 1 "centroid" 1 none false 25 rfl rfl (by decide) (by decide)⟩

/-- C3: each of the three registration functions applies a raw displacement to
the candidate frame and returns its negation to the caller; for the
peak-pixel and centroid methods the raw displacement is reference coordinates
minus candidate coordinates, and for cross-correlation without sub-pixel
refinement it is the offset of the correlation peak from the surface
centre. -/
theorem C3_sign_convention :
    (∀ (shift : Frame → ShiftVec → Frame) (rac : Frame → CropArg → Frame)
        (image : Frame) (refpk : ShiftVec) (fsr : ℚ) (bid : Option CropArg),
      ∃ d : ShiftVec,
        d = sub2 refpk (natPair (argmax2d (subImagePP rac image bid))) ∧
        shift_pp shift rac image refpk fsr bid =
          (shift image d, neg2 d, maxFlatten (subImagePP rac image bid))) ∧
    (∀ (shift : Frame → ShiftVec → Frame) (image : Frame) (refc : ShiftVec),
      ∃ d : ShiftVec,
        d = sub2 refc (_centroid image) ∧
        shift_centroid shift image refc = (shift image d, neg2 d)) ∧
    (∀ (shift : Frame → ShiftVec → Frame) (gaussFit : Frame → ShiftVec)
        (image image_ref : Frame) (buff : ℕ) (sp : Bool),
      ∃ d : ShiftVec,
        (sp = false →
          d = sub2 (natPair (argmax2d (xcorrNormCorr image image_ref)))
                ((image.length : ℚ) / 2, (frameWidth image : ℚ) / 2)) ∧
        shift_xcorr shift gaussFit image image_ref buff sp = (shift image d, neg2 d)) := by
  refine ⟨fun _ _ _ _ _ _ => ⟨_, rfl, rfl⟩, fun _ _ _ => ⟨_, rfl, rfl⟩,
    fun shift gaussFit image image_ref buff sp => ⟨_, fun hsp => ?_, rfl⟩⟩
  subst hsp
  rfl

/-- C6 counterexample: an all-zero candidate/reference pair has a correlation
surface whose maximum is exactly zero, yet `shift_xcorr` still runs the
normalisation and returns a result: the division by the maximum is performed
with divisor zero, refuting the claim that this case is guarded before
normalisation. -/
theorem C6_counterexample :
    xcorrCorrMax [[0, 0], [0, 0]] [[0, 0], [0, 0]] = 0 ∧
    shift_xcorr shiftId gaussFit0 [[0, 0], [0, 0]] [[0, 0], [0, 0]] 0 false =
      ([[0, 0], [0, 0]], (1, 1)) := by
  constructor
  · simp [xcorrCorrMax, xcorrCorr, conv2dFull, centeredCrop, rev2, maxFlatten, flattenF,
      idxQ, frameWidth, List.range_succ]
  · simp [shift_xcorr, xcorrNormCorr, xcorrCorrMax, xcorrCorr, conv2dFull, centeredCrop,
      rev2, maxFlatten, flattenF, idxQ, frameWidth, scaleDiv, argmax2d, argmaxList, neg2,
      shiftId, List.range_succ]

/-- C6 (amended): cross-correlation registration does not guard the
zero-maximum case: `shift_xcorr` unconditionally divides the correlation
surface by its maximum and proceeds, and on an all-zero pair that divisor is
exactly zero (a latent numeric degeneracy, not a guarded error). -/
theorem C6_unguarded_normalisation :
    (∀ (shift : Frame → ShiftVec → Frame) (gaussFit : Frame → ShiftVec)
        (image image_ref : Frame) (buff : ℕ) (sp : Bool),
      shift_xcorr shift gaussFit image image_ref buff sp =
        (let corr := scaleDiv (xcorrCorr image image_ref) (xcorrCorrMax image image_ref)
         let rel : ShiftVec :=
           if sp then gaussFit (cropInterior corr buff image.length (frameWidth image))
           else (((argmax2d corr).1 : ℚ) - (image.length : ℚ) / 2,
                 ((argmax2d corr).2 : ℚ) - (frameWidth image : ℚ) / 2)
         (shift image rel, neg2 rel))) ∧
    xcorrCorrMax [[0, 0], [0, 0]] [[0, 0], [0, 0]] = 0 := by
  refine ⟨fun _ _ _ _ _ _ => rfl, ?_⟩
  simp [xcorrCorrMax, xcorrCorr, conv2dFull, centeredCrop, rev2, maxFlatten, flattenF,
    idxQ, frameWidth, List.range_succ]

/-- C7: on any input that passes the input check, an unsupported alignment
method name makes `luckyImaging` return the fatal method-configuration error,
and a supported method with an unsupported execution-mode name makes it
return the fatal mode-configuration error.  In both cases the result is this
constant error for every interpretation of the registration primitives: no
candidate frame is registered or shifted. -/
theorem C7_invalid_config (shift : Frame → ShiftVec → Frame) (gaussFit : Frame → ShiftVec)
    (rac : Frame → CropArg → Frame) (images : NDImages) (image_ref : Option Frame)
    (Nopt : Option ℕ) (imgs : List Frame) (ref : Frame) (n : ℕ)
    (li_method mode : String) (fsr : ℚ) (bid : Option CropArg) (sp : Bool) (buff : ℕ)
    (hchk : _li_error_check images image_ref Nopt = .ok (imgs, ref, n)) :
    (li_method ∉ validMethods →
      luckyImaging shift gaussFit rac images li_method mode image_ref fsr bid Nopt sp buff =
        .error "ERROR: invalid Lucky Imaging method specified; must be xcorr, peak_pixel or centroid for now...") ∧
    (li_method ∈ validMethods → mode ≠ "parallel" → mode ≠ "serial" →
      luckyImaging shift gaussFit rac images li_method mode image_ref fsr bid Nopt sp buff =
        .error "ERROR: mode must be either parallel or serial!") := by
  rw [luckyImaging_check_ok shift gaussFit rac images image_ref Nopt imgs ref n li_method
        mode fsr bid sp buff hchk]
  constructor
  · intro hm
    have hm' : ¬ (li_method = "xcorr" ∨ li_method = "peak_pixel" ∨ li_method = "centroid") := by
      simpa [validMethods] using hm
    simp only [luckyImagingChecked]
    rw [if_pos hm']
  · intro hm hpar hser
    have hm' : li_method = "xcorr" ∨ li_method = "peak_pixel" ∨ li_method = "centroid" := by
      simpa [validMethods] using hm
    simp only [luckyImagingChecked]
    rw [if_neg (not_not_intro hm'), if_neg hpar, if_neg hser]

/-- C7 witness: a concrete valid input with an unknown method name and, in a
second application, with a valid method but an unknown mode name. -/
theorem C7_invalid_config_witness :
    _li_error_check (NDImages.seq [[[2]], [[3]]]) none none = .ok ([[[3]]], [[2]], 1) ∧
    luckyImaging shiftId gaussFit0 racId (NDImages.seq [[[2]], [[3]]]) "drizzle" "serial"
        none 1 none none false 25 =
      .error "ERROR: invalid Lucky Imaging method specified; must be xcorr, peak_pixel or centroid for now..." ∧
    luckyImaging shiftId gaussFit0 racId (NDImages.seq [[[2]], [[3]]]) "centroid" "quantum"
        none 1 none none false 25 =
      .error "ERROR: mode must be either parallel or serial!" :=
  ⟨rfl,
   (C7_invalid_config shiftId gaussFit0 racId (NDImages.seq [[[2]], [[3]]]) none none
     [[[3]]] [[2]] 1 "drizzle" "serial" 1 none false 25 rfl).1 (by decide),
   (C7_invalid_config shiftId gaussFit0 racId (NDImages.seq [[[2]], [[3]]]) none none
     [[[3]]] [[2]] 1 "centroid" "quantum" 1 none false 25 rfl).2 (by decide) (by decide)
     (by decide)⟩

/-- C8: the input check does not reject a one-frame sequence.  A rank-3 stack
holding exactly one frame and no explicit reference passes `_li_error_check`
with zero candidate frames (the lone frame becomes the reference), and
`luckyImaging` then returns the reference unchanged with an empty shift
array; only a rank-2 single image triggers the single-image error.  This
evaluates the code at the failing input of the code-bug verdict. -/
theorem C8_single_frame_sequence_passes :
    _li_error_check (NDImages.seq [[[1, 2], [3, 4]]]) none none =
      .ok ([], [[1, 2], [3, 4]], 0) ∧
    luckyImaging shiftId gaussFit0 racId (NDImages.seq [[[1, 2], [3, 4]]]) "centroid"
        "serial" none 1 none none false 25 = .ok ([[1, 2], [3, 4]], []) ∧
    _li_error_check (NDImages.img [[1, 2], [3, 4]]) none none =
      .error "ERROR: cannot shift and stack a single image! Input array must have N > 1." :=
  ⟨rfl,
   by
    simp [luckyImaging, _li_error_check, truthyN, luckyImagingChecked, shiftFunFor,
      stackResults, sumFrames, zeroFrame, madd, scaleDiv, frameWidth, List.replicate],
   rfl⟩

/-- Stacking without frame selection: any method/fraction combination other
than peak-pixel with fraction below 1 mean-combines the reference with all
shifted frames, dividing by the frame count plus one. -/
theorem stackResults_noSel (li_method : String) (fsr : ℚ) (ref : Frame) (N : ℕ)
    (results : List (Frame × ShiftVec × ℚ))
    (h : ¬ (li_method = "peak_pixel" ∧ fsr < 1)) :
    stackResults li_method fsr ref N results =
      (scaleDiv (madd ref (sumFrames ref.length (frameWidth ref) (results.map (·.1))))
        ((N : ℚ) + 1), results.map (·.2.1)) := by
  simp only [stackResults]
  rw [if_neg h]

/-- Stacking with peak-pixel frame selection: the top `ceil(fsr * N)` frames
of the descending peak ranking are mean-combined with the reference, dividing
by `ceil(fsr * N) + 1`. -/
theorem stackResults_sel (fsr : ℚ) (ref : Frame) (N : ℕ)
    (results : List (Frame × ShiftVec × ℚ)) (h1 : fsr < 1) :
    stackResults "peak_pixel" fsr ref N results =
      (scaleDiv (madd ref (sumFrames ref.length (frameWidth ref)
          (((argsortDesc (results.map (·.2.2))).take ((⌈fsr * (N : ℚ)⌉).toNat)).map
            (fun i => (results.map (·.1)).getD i (zeroFrame ref.length (frameWidth ref))))))
        (((⌈fsr * (N : ℚ)⌉).toNat : ℚ) + 1),
       results.map (·.2.1)) := by
  simp only [stackResults]
  rw [if_pos ⟨by trivial, h1⟩]

/-- The number of selected frames never exceeds the candidate count: for
`0 < fsr < 1`, `ceil(fsr * n) ≤ n`. -/
theorem ceil_mul_le (fsr : ℚ) (n : ℕ) (h0 : 0 < fsr) (h1 : fsr < 1) :
    (⌈fsr * (n : ℚ)⌉).toNat ≤ n := by
  have hfn : fsr * (n : ℚ) ≤ (n : ℚ) := by
    have hn0 : (0 : ℚ) ≤ (n : ℚ) := by positivity
    exact mul_le_of_le_one_left hn0 (le_of_lt h1)
  have hceil : ⌈fsr * (n : ℚ)⌉ ≤ (n : ℤ) := by
    calc ⌈fsr * (n : ℚ)⌉ ≤ ⌈(n : ℚ)⌉ := Int.ceil_mono hfn
      _ = (n : ℤ) := Int.ceil_natCast n
  exact Int.toNat_le.mpr hceil

/-- C2: with SelectionFraction 1 the stacked image returned by `luckyImaging`
is (reference + sum of the `n` shifted candidate frames) divided by `n + 1`,
where `n` is the number of candidate frames; with a SelectionFraction
strictly between 0 and 1 (peak-pixel method) the divisor is the selected
subset size plus 1. -/
theorem C2_stacking_formula (shift : Frame → ShiftVec → Frame) (gaussFit : Frame → ShiftVec)
    (rac : Frame → CropArg → Frame) (images : NDImages) (image_ref : Option Frame)
    (Nopt : Option ℕ) (imgs : List Frame) (ref : Frame) (n : ℕ)
    (li_method mode : String) (bid : Option CropArg) (sp : Bool) (buff : ℕ)
    (hchk : _li_error_check images image_ref Nopt = .ok (imgs, ref, n))
    (hn : n = imgs.length) (hne : imgs ≠ [])
    (hm : li_method ∈ validMethods)
    (hmode : mode = "parallel" ∨ mode = "serial") :
    C2Spec shift gaussFit rac images image_ref Nopt imgs ref n li_method mode bid sp buff := by
  have hm' : li_method = "xcorr" ∨ li_method = "peak_pixel" ∨ li_method = "centroid" := by
    simpa [validMethods] using hm
  constructor
  · rw [luckyImaging_check_ok shift gaussFit rac images image_ref Nopt imgs ref n li_method
          mode 1 bid sp buff hchk,
        luckyImagingChecked_valid shift gaussFit rac imgs ref n li_method mode 1 bid sp buff
          hn hne hm' hmode,
        stackResults_noSel li_method 1 ref n _ (fun hc => absurd hc.2 (lt_irrefl 1))]
    simp only [liResults]
  · intro fsr h0 h1
    have hlen : ((argsortDesc
        ((imgs.map (shiftFunFor shift gaussFit rac "peak_pixel" ref fsr bid sp buff)).map
          (·.2.2))).take ((⌈fsr * (n : ℚ)⌉).toNat)).length = (⌈fsr * (n : ℚ)⌉).toNat := by
      rw [List.length_take, argsortDesc, List.length_insertionSort, List.length_range,
        List.length_map, List.length_map, ← hn]
      exact Nat.min_eq_left (ceil_mul_le fsr n h0 h1)
    rw [luckyImaging_check_ok shift gaussFit rac images image_ref Nopt imgs ref n
          "peak_pixel" mode fsr bid sp buff hchk,
        luckyImagingChecked_valid shift gaussFit rac imgs ref n "peak_pixel" mode fsr bid
          sp buff hn hne (Or.inr (Or.inl rfl)) hmode,
        stackResults_sel fsr ref n _ h1]
    simp only [liResults, selectedIdx, hlen]

/-- C2 witness: three concrete frames (implicit reference), serial mode,
peak-pixel method; both parts of the statement hold with the hypotheses
discharged by evaluation. -/
theorem C2_stacking_formula_witness :
    _li_error_check (NDImages.seq [[[1]], [[5]], [[3]]]) none none =
      .ok ([[[5]], [[3]]], [[1]], 2) ∧
    C2Spec shiftId gaussFit0 racId (NDImages.seq [[[1]], [[5]], [[3]]]) none none
      [[[5]], [[3]]] [[1]] 2 "peak_pixel" "serial" none false 25 :=
  ⟨rfl,
   C2_stacking_formula shiftId gaussFit0 racId (NDImages.seq [[[1]], [[5]], [[3]]]) none none
     [[[5]], [[3]]] [[1]] 2 "peak_pixel" "serial" none false 25 rfl rfl (by decide)
     (by decide) (Or.inr rfl)⟩

/-- C4: for the peak-pixel method with SelectionFraction strictly between 0
and 1 and `n` candidate frames, exactly the top `ceil(fsr * n)` frames of a
descending peak-intensity ranking are summed into the stack alongside the
reference: the ranking is a permutation of all candidate indices, sorted by
decreasing peak value; the stack sums exactly its first `ceil(fsr * n)`
entries (so never more than `ceil(fsr * n)` non-reference frames); and every
selected index has a peak value at least that of every unselected one. -/
theorem C4_frame_selection (shift : Frame → ShiftVec → Frame) (gaussFit : Frame → ShiftVec)
    (rac : Frame → CropArg → Frame) (images : NDImages) (image_ref : Option Frame)
    (Nopt : Option ℕ) (imgs : List Frame) (ref : Frame) (n : ℕ) (mode : String)
    (bid : Option CropArg) (sp : Bool) (buff : ℕ) (fsr : ℚ)
    (hchk : _li_error_check images image_ref Nopt = .ok (imgs, ref, n))
    (hn : n = imgs.length) (hne : imgs ≠ [])
    (hmode : mode = "parallel" ∨ mode = "serial")
    (h0 : 0 < fsr) (h1 : fsr < 1) :
    C4Spec shift gaussFit rac images image_ref Nopt imgs ref n mode bid sp buff fsr := by
  have hplen :
      ((liResults shift gaussFit rac "peak_pixel" ref fsr bid sp buff imgs).map (·.2.2)).length
        = n := by
    rw [liResults, List.length_map, List.length_map]
    exact hn.symm
  have hs : List.Sorted
      (peakGE ((liResults shift gaussFit rac "peak_pixel" ref fsr bid sp buff imgs).map (·.2.2)))
      (argsortDesc
        ((liResults shift gaussFit rac "peak_pixel" ref fsr bid sp buff imgs).map (·.2.2))) := by
    rw [argsortDesc]
    exact List.sorted_insertionSort _ _
  unfold C4Spec
  refine Exists.intro
    (argsortDesc
      ((liResults shift gaussFit rac "peak_pixel" ref fsr bid sp buff imgs).map (·.2.2))) ?_
  refine And.intro ?_ ?_
  · rw [argsortDesc, hplen]
    exact List.perm_insertionSort _ _
  refine And.intro hs ?_
  refine And.intro ?_ ?_
  · rw [List.length_take, argsortDesc, List.length_insertionSort, List.length_range, hplen]
    exact Nat.min_eq_left (ceil_mul_le fsr n h0 h1)
  refine And.intro ?_ ?_
  · rw [← List.take_append_drop ((⌈fsr * (n : ℚ)⌉).toNat)
        (argsortDesc
          ((liResults shift gaussFit rac "peak_pixel" ref fsr bid sp buff imgs).map (·.2.2)))]
      at hs
    exact fun i hi j hj => (List.pairwise_append.mp hs).2.2 i hi j hj
  · rw [luckyImaging_check_ok shift gaussFit rac images image_ref Nopt imgs ref n
          "peak_pixel" mode fsr bid sp buff hchk,
        luckyImagingChecked_valid shift gaussFit rac imgs ref n "peak_pixel" mode fsr bid
          sp buff hn hne (Or.inr (Or.inl rfl)) hmode,
        stackResults_sel fsr ref n _ h1]
    simp only [liResults]

/-- C4 witness: three concrete frames (implicit reference), fraction 1/2,
serial mode; every hypothesis is discharged by evaluation. -/
theorem C4_frame_selection_witness :
    _li_error_check (NDImages.seq [[[1]], [[5]], [[3]]]) none none =
      .ok ([[[5]], [[3]]], [[1]], 2) ∧
    C4Spec shiftId gaussFit0 racId (NDImages.seq [[[1]], [[5]], [[3]]]) none none
      [[[5]], [[3]]] [[1]] 2 "serial" none false 25 (1 / 2) :=
  ⟨rfl,
   C4_frame_selection shiftId gaussFit0 racId (NDImages.seq [[[1]], [[5]], [[3]]]) none none
     [[[5]], [[3]]] [[1]] 2 "serial" none false 25 (1 / 2) rfl rfl (by decide) (Or.inr rfl)
     (by norm_num) (by norm_num)⟩

/-- Total intensity of a rectangular frame as a double sum over pixel
coordinates. -/
theorem sumElems_eq_double (m : Frame) (w : ℕ) (hw : ∀ row ∈ m, row.length = w) :
    sumElems m = ∑ r in Finset.range m.length, ∑ c in Finset.range w, idxQ m r c := by
  rw [sumElems_eq]
  refine Finset.sum_congr rfl (fun r hr => ?_)
  rw [Finset.mem_range] at hr
  have hmem : m.getD r [] ∈ m := by
    rw [List.getD_eq_getElem?_getD, List.getElem?_eq_getElem hr, Option.getD_some]
    exact List.getElem_mem hr
  rw [listSum_getD, hw _ hmem]
  exact Finset.sum_congr rfl (fun c _ => rfl)

/-- Sum of a list zipped with its positions cast to ℚ. -/
theorem sum_zipWith_cast_range (row : List ℚ) :
    (List.zipWith (· * ·) (castRange row.length) row).sum =
      ∑ c in Finset.range row.length, (c : ℚ) * row.getD c 0 := by
  rw [castRange, List.zipWith_map_left, zipWith_range_eq_map row 0, listRangeMapSum]

/-- Mapping a constant scale over a row through a meshgrid-style constant list
is a plain scaling of the row. -/
theorem elemMul_rowConst (q : ℚ) (ys : List ℚ) (row : List ℚ)
    (hle : row.length ≤ ys.length) :
    List.zipWith (· * ·) (ys.map (fun _ => q)) row = row.map (fun b => q * b) := by
  rw [List.zipWith_map_left]
  exact zipWith_const_right (fun b => q * b) ys row hle

/-- Row-moment sum of `_centroid`: the meshgrid matrix whose entry at (r, c)
is the row index r, multiplied elementwise into the image and summed, equals
the double sum of `row * intensity`. -/
theorem sum_elemMul_rowWeights (image : Frame) (w : ℕ)
    (hw : ∀ row ∈ image, row.length = w) :
    sumElems (elemMul
      ((castRange image.length).map (fun bi => (castRange w).map (fun _ => bi))) image) =
      ∑ r in Finset.range image.length, ∑ c in Finset.range w, (r : ℚ) * idxQ image r c := by
  have step1 : elemMul
      ((castRange image.length).map (fun bi => (castRange w).map (fun _ => bi))) image =
      (List.range image.length).map (fun r =>
        List.zipWith (· * ·) ((castRange w).map (fun _ => ((r : ℕ) : ℚ)))
          (image.getD r [])) := by
    rw [elemMul, List.zipWith_map_left,
      show castRange image.length
        = List.map (fun k : ℕ => (k : ℚ)) (List.range image.length) from rfl,
      List.zipWith_map_left]
    exact zipWith_range_eq_map image [] _
  rw [step1, sumElems, flattenF, List.sum_flatten, List.map_map, listRangeMapSum]
  refine Finset.sum_congr rfl (fun r hr => ?_)
  rw [Finset.mem_range] at hr
  have hmem : image.getD r [] ∈ image := by
    rw [List.getD_eq_getElem?_getD, List.getElem?_eq_getElem hr, Option.getD_some]
    exact List.getElem_mem hr
  have hlen : (image.getD r []).length = w := hw _ hmem
  show (List.zipWith (· * ·) ((castRange w).map (fun _ => ((r : ℕ) : ℚ)))
      (image.getD r [])).sum = _
  rw [elemMul_rowConst ((r : ℕ) : ℚ) (castRange w) (image.getD r [])
        (by rw [hlen, castRange, List.length_map, List.length_range]),
      sum_map_mulLeft, listSum_getD, hlen, Finset.mul_sum]
  exact Finset.sum_congr rfl (fun c _ => rfl)

/-- Column-moment sum of `_centroid`: the meshgrid matrix whose entry at
(r, c) is the column index c, multiplied elementwise into the image and
summed, equals the double sum of `column * intensity`. -/
theorem sum_elemMul_colWeights (image : Frame) (w : ℕ)
    (hw : ∀ row ∈ image, row.length = w) :
    sumElems (elemMul ((castRange image.length).map (fun _ => castRange w)) image) =
      ∑ r in Finset.range image.length, ∑ c in Finset.range w, (c : ℚ) * idxQ image r c := by
  have step1 : elemMul ((castRange image.length).map (fun _ => castRange w)) image =
      image.map (fun row => List.zipWith (· * ·) (castRange w) row) := by
    rw [elemMul, List.zipWith_map_left]
    exact zipWith_const_right (fun row => List.zipWith (· * ·) (castRange w) row)
      (castRange image.length) image
      (by rw [castRange, List.length_map, List.length_range])
  rw [step1, sumElems, flattenF, List.sum_flatten, List.map_map, listMapSum_getD image [] _]
  refine Finset.sum_congr rfl (fun r hr => ?_)
  rw [Finset.mem_range] at hr
  have hmem : image.getD r [] ∈ image := by
    rw [List.getD_eq_getElem?_getD, List.getElem?_eq_getElem hr, Option.getD_some]
    exact List.getElem_mem hr
  have hlen : (image.getD r []).length = w := hw _ hmem
  show (List.zipWith (· * ·) (castRange w) (image.getD r [])).sum = _
  rw [← hlen, sum_zipWith_cast_range, hlen]
  exact Finset.sum_congr rfl (fun c _ => rfl)

/-- C5: for a rectangular frame with nonzero total intensity, `_centroid`
computes exactly the intensity-weighted first moments
(Σ row·I / ΣI, Σ col·I / ΣI) over the full frame, and centroid registration
uses the raw displacement reference centroid minus candidate centroid. -/
theorem C5_centroid_moments (image : Frame)
    (hw : ∀ row ∈ image, row.length = frameWidth image)
    (hM : sumElems image ≠ 0) :
    _centroid image =
      ((∑ r in Finset.range image.length, ∑ c in Finset.range (frameWidth image),
          (r : ℚ) * idxQ image r c) / sumElems image,
       (∑ r in Finset.range image.length, ∑ c in Finset.range (frameWidth image),
          (c : ℚ) * idxQ image r c) / sumElems image) ∧
    sumElems image =
      ∑ r in Finset.range image.length, ∑ c in Finset.range (frameWidth image),
        idxQ image r c ∧
    (∀ (shift : Frame → ShiftVec → Frame) (img_ref : Frame),
      shift_centroid shift image (_centroid img_ref) =
        (shift image (sub2 (_centroid img_ref) (_centroid image)),
         neg2 (sub2 (_centroid img_ref) (_centroid image)))) := by
  refine ⟨?_, sumElems_eq_double image (frameWidth image) hw, fun shift img_ref => rfl⟩
  have hrow := sum_elemMul_rowWeights image (frameWidth image) hw
  have hcol := sum_elemMul_colWeights image (frameWidth image) hw
  simp only [_centroid, meshgrid]
  rw [hrow, hcol]

/-- C5 witness: a concrete 1-pixel frame with total intensity 2. -/
theorem C5_centroid_moments_witness :
    (∀ row ∈ ([[2]] : Frame), row.length = frameWidth [[2]]) ∧
    sumElems [[2]] ≠ 0 ∧
    (_centroid [[2]] =
      ((∑ r in Finset.range ([[2]] : Frame).length,
          ∑ c in Finset.range (frameWidth [[2]]), (r : ℚ) * idxQ [[2]] r c) / sumElems [[2]],
       (∑ r in Finset.range ([[2]] : Frame).length,
          ∑ c in Finset.range (frameWidth [[2]]), (c : ℚ) * idxQ [[2]] r c) / sumElems [[2]]) ∧
     sumElems [[2]] =
      ∑ r in Finset.range ([[2]] : Frame).length,
        ∑ c in Finset.range (frameWidth [[2]]), idxQ [[2]] r c ∧
     (∀ (shift : Frame → ShiftVec → Frame) (img_ref : Frame),
      shift_centroid shift [[2]] (_centroid img_ref) =
        (shift [[2]] (sub2 (_centroid img_ref) (_centroid [[2]])),
         neg2 (sub2 (_centroid img_ref) (_centroid [[2]]))))) :=
  ⟨by decide, by norm_num [sumElems, flattenF],
   C5_centroid_moments [[2]] (by decide) (by norm_num [sumElems, flattenF])⟩

/-- Counting loop over a list of zeros never exceeds the threshold. -/
theorem countP_replicate_zeros (n : ℕ) :
    (List.replicate n (0 : ℝ)).countP (fun e => decide ((0.1 : ℝ) < e)) = 0 := by
  induction n with
  | zero => rfl
  | succ n ih =>
      rw [List.replicate_succ, List.countP_cons, ih]
      simp [show ¬ ((0.1 : ℝ) < 0) from by norm_num]

/-- C9: `alignmentError` returns the per-frame array of Euclidean distances
between the k-th injected and k-th recovered shift vectors, the count of
entries strictly above the fixed 0.1 threshold, and the mean of the
per-frame distances; on two identical arrays it returns count 0, an all-zero
array and mean 0. -/
theorem C9_alignmentError (in_idxs out_idxs : List (ℝ × ℝ))
    (hlen : out_idxs.length = in_idxs.length) (hN : 0 < in_idxs.length) :
    (alignmentError in_idxs out_idxs).2.1 =
      (List.range in_idxs.length).map (fun k =>
        Real.sqrt (((in_idxs.getD k (0, 0)).1 - (out_idxs.getD k (0, 0)).1) ^ 2 +
          ((in_idxs.getD k (0, 0)).2 - (out_idxs.getD k (0, 0)).2) ^ 2)) ∧
    (alignmentError in_idxs out_idxs).1 =
      ((alignmentError in_idxs out_idxs).2.1).countP (fun e => decide ((0.1 : ℝ) < e)) ∧
    (alignmentError in_idxs out_idxs).2.2 =
      ((alignmentError in_idxs out_idxs).2.1).sum / (in_idxs.length : ℝ) ∧
    (in_idxs = out_idxs →
      alignmentError in_idxs out_idxs = (0, List.replicate in_idxs.length (0 : ℝ), 0)) := by
  refine ⟨rfl, ?_, rfl, ?_⟩
  · show List.foldl _ 0 _ = _
    rw [foldl_count_eq_countP (fun e => (0.1 : ℝ) < e)]
    rw [Nat.zero_add]
    rfl
  · intro h
    subst h
    have herrs : (List.range in_idxs.length).map (fun k =>
        Real.sqrt (((in_idxs.getD k (0, 0)).1 - (in_idxs.getD k (0, 0)).1) ^ 2 +
          ((in_idxs.getD k (0, 0)).2 - (in_idxs.getD k (0, 0)).2) ^ 2)) =
        List.replicate in_idxs.length 0 := by
      simp
    show (List.foldl _ 0 _, _, _) = _
    rw [herrs, foldl_count_eq_countP (fun e => (0.1 : ℝ) < e), Nat.zero_add,
      countP_replicate_zeros, List.sum_replicate]
    simp

/-- C9 witness: two identical two-entry shift arrays. -/
theorem C9_alignmentError_witness :
    (0 : ℕ) < ([((1 : ℝ), 2), (3, 4)] : List (ℝ × ℝ)).length ∧
    alignmentError [((1 : ℝ), 2), (3, 4)] [((1 : ℝ), 2), (3, 4)] =
      (0, List.replicate 2 (0 : ℝ), 0) :=
  ⟨by decide,
   (C9_alignmentError [((1 : ℝ), 2), (3, 4)] [((1 : ℝ), 2), (3, 4)] rfl
     (by decide)).2.2.2 rfl⟩

/-- C10: when both a numeric sigma and an explicit shift array are supplied,
`addTipTilt` ignores the supplied shifts: every iteration draws its own
Gaussian shift (the standard-normal draw scaled by sigma, per axis), applies
it to the frame, and overwrites the corresponding entry of the supplied
array, so the returned shift array holds the random draws (entries beyond the
produced range keep the caller's values).  The hypothesis records that the
supplied array is long enough for the in-place overwrite (a shorter array
raises IndexError in the Python source). -/
theorem C10_addTipTilt_overwrites (shift : Frame → ShiftVec → Frame)
    (rac : Frame → CropArg → Frame) (randn : ℕ → ℚ) (images : NDImages)
    (s : ℚ) (v : List ShiftVec) (N_tt : ℕ)
    (hv : numTT images N_tt ≤ v.length) :
    addTipTilt shift rac randn images (some s) (some v) N_tt none =
      .ok ((List.range (numTT images N_tt)).map (fun j =>
             shift (frameAt images j) (randn (2 * j) * s, randn (2 * j + 1) * s)),
           (List.range (numTT images N_tt)).map (fun j =>
             (randn (2 * j) * s, randn (2 * j + 1) * s)) ++ v.drop (numTT images N_tt)) := by
  cases images with
  | img m =>
      simp [addTipTilt, getImageSize, numTT, frameAt]
  | seq l =>
      by_cases h1 : l.length = 1
      · simp [addTipTilt, getImageSize, numTT, frameAt, h1]
      · simp [addTipTilt, getImageSize, numTT, frameAt, h1]

/-- C10 witness: a single truth frame, sigma 2, caller shifts (9, 9),
deterministic draw stream 0, 1, 2, ...; the returned shift is the draw-based
(0, 2), not the caller's (9, 9). -/
theorem C10_addTipTilt_overwrites_witness :
    numTT (NDImages.img [[1]]) 1 ≤ ([((9 : ℚ), 9)] : List ShiftVec).length ∧
    addTipTilt shiftId racId randnLin (NDImages.img [[1]]) (some 2) (some [(9, 9)]) 1 none =
      .ok ([[[1]]], [(0, 2)]) :=
  ⟨by decide,
   by
    have h := C10_addTipTilt_overwrites shiftId racId randnLin (NDImages.img [[1]]) 2
      [(9, 9)] 1 (by decide)
    rw [h]
    norm_num [numTT, frameAt, shiftId, randnLin, List.range_succ]⟩
